import Mathlib

/-!
# Verification of the aquiles-etl-pipeline normalization-and-merge core

A shallow embedding, in Lean 4, of the field transformers, the record
normalizer, the staging loader, the fact merger, the per-file processing
tracker and the connection-resilience retry of the `aquiles-etl-pipeline`
repository, together with theorems settling the specification claims.

Sources embedded:
* `src/common/transforms.py` / `src/core/data_processor.py` (identical
  transform functions; the regex-based extractors are modelled character by
  character with the same greedy, first-match semantics),
* `src/core/data_processor.py` (`apply_transformations`),
* `src/core/etl_orchestrator.py` (staging loader, fact merger, process-file
  tracker, CSV and invoice pipelines),
* `src/common/sql_utils.py` and `src/core/database.py` (connection probe).

Machine integers of the store are modelled as `Nat`/`Int` (no column in the
claims overflows), `decimal` values as `Int` (the price transformer strips
every `.` and `,`, so all parsed decimals are integers), fallible code as
`Except`/`Option`, and timestamps (`GETDATE()`/`datetime.now()`) as an
explicit `now : Nat` parameter threaded from the caller.
-/

namespace Aquiles

/-! ## ASCII character classes (the character classes of the Python regexes) -/

/-- `[a-z]` of the Python regexes (ASCII-only, as in Python 3 `re`). -/
def isAsciiLower (c : Char) : Bool := decide (97 ≤ c.toNat ∧ c.toNat ≤ 122)

/-- `[A-Z]` of the Python regexes. -/
def isAsciiUpper (c : Char) : Bool := decide (65 ≤ c.toNat ∧ c.toNat ≤ 90)

/-- `[a-zA-Z]` of the Python regexes. -/
def isAsciiLetter (c : Char) : Bool := isAsciiLower c || isAsciiUpper c

/-- `[0-9]` / `\d` of the Python regexes (ASCII `0`-`9`, the same characters
`Char.isDigit` accepts). -/
def isDigitChar (c : Char) : Bool := decide (48 ≤ c.toNat ∧ c.toNat ≤ 57)

/-- Numeric value of a digit string, most significant digit first
(the value `int`/`Decimal` give to a string of ASCII digits). -/
def digitsToNat (l : List Char) : Nat :=
  l.foldl (fun a c => 10 * a + (c.toNat - 48)) 0

/-! ## `transform_price` (src/common/transforms.py lines 17-23)

```python
def transform_price(price_str):
    try:
        cleaned_price_str = price_str.replace(".", "").replace(",", "").replace("$", "").replace(" ", "")
        return Decimal(cleaned_price_str)
    except Exception as e:
        return None
```
The four sequential single-character `replace(_, "")` calls remove exactly the
occurrences of `.`, `,`, `$` and the space character. -/

def cleanPriceChars (l : List Char) : List Char :=
  l.filter (fun c => decide (c ≠ '.' ∧ c ≠ ',' ∧ c ≠ '$' ∧ c ≠ ' '))

/-- Model of `decimal.Decimal(s)` restricted to the strings `transform_price`
produces (no `.` remains after cleaning): an optional single leading sign
followed by a nonempty run of ASCII digits parses to its integer value, any
other string raises (modelled as `none`).  Exponent forms, underscores and
non-ASCII digits, which `Decimal` also accepts, are outside every claim and
are not modelled. -/
def parseDecimalModel (l : List Char) : Option Int :=
  match l with
  | [] => none
  | c :: rest =>
    if c = '+' then
      if rest ≠ [] ∧ rest.all isDigitChar then some ((digitsToNat rest : Int)) else none
    else if c = '-' then
      if rest ≠ [] ∧ rest.all isDigitChar then some (-(digitsToNat rest : Int)) else none
    else if (c :: rest).all isDigitChar then some ((digitsToNat (c :: rest) : Int)) else none

/-- `transform_price` of src/common/transforms.py. -/
def transform_price (s : String) : Option Int :=
  parseDecimalModel (cleanPriceChars s.data)

/-! ## `remove_special_characters`, `separate_camel_case`,
`transform_provider_name` (src/common/transforms.py lines 25-46) -/

/-- `re.sub(r'[^A-Za-z0-9/% ]+', '', text)`: keep exactly ASCII letters,
digits, `/`, `%` and the space. -/
def removeSpecialChars (l : List Char) : List Char :=
  l.filter (fun c => isAsciiLetter c || isDigitChar c || c == '/' || c == '%' || c == ' ')

/-- `remove_special_characters` of src/common/transforms.py. -/
def remove_special_characters (s : String) : String :=
  String.mk (removeSpecialChars s.data)

/-- The boundary of `re.sub(r'([a-z])([A-Z0-9])', r'\1 \2', text)`: a lowercase
letter immediately followed by an uppercase letter or a digit. -/
def sepBoundary (a b : Char) : Bool := isAsciiLower a && (isAsciiUpper b || isDigitChar b)

/-- Character-level model of `re.sub(r'([a-z])([A-Z0-9])', r'\1 \2', text)`:
scan left to right; at each boundary insert a space and resume after the
matched pair (non-overlapping matches, exactly as `re.sub` scans). -/
def sepCamel : List Char → List Char
  | [] => []
  | [a] => [a]
  | a :: b :: rest =>
    if sepBoundary a b then a :: ' ' :: b :: sepCamel rest
    else a :: sepCamel (b :: rest)

/-- `separate_camel_case` of src/common/transforms.py. -/
def separate_camel_case (s : String) : String := String.mk (sepCamel s.data)

/-- `transform_provider_name` of src/common/transforms.py:
special-character strip, then camel-case separation (both never fail on a
string input, so the `try` never returns `None` for the string inputs the
pipeline passes). -/
def transform_provider_name (s : String) : String :=
  separate_camel_case (remove_special_characters s)

/-! ## `capitalize_first_letter` / `transform_description`
(src/common/transforms.py lines 48-61) -/

/-- One step of Python `str.title()` on ASCII text: a letter is uppercased
when the previous character is not a letter, lowercased otherwise; the flag
carries whether the previous character was a letter. -/
def pythonTitleGo : List Char → Bool → List Char
  | [], _ => []
  | c :: rest, prevAlpha =>
    (if isAsciiLetter c then (if prevAlpha then c.toLower else c.toUpper) else c)
      :: pythonTitleGo rest (isAsciiLetter c)

/-- Python `str.title()` restricted to ASCII (the cased characters of the
descriptions every claim exercises). -/
def pythonTitle (l : List Char) : List Char := pythonTitleGo l false

/-- Python `str.strip()` (leading and trailing whitespace removed). -/
def stripChars (l : List Char) : List Char :=
  ((l.dropWhile Char.isWhitespace).reverse.dropWhile Char.isWhitespace).reverse

/-- `capitalize_first_letter` of src/common/transforms.py:
`text.strip().title()`, with empty input passed through unchanged. -/
def capitalize_first_letter (s : String) : String :=
  if s = "" then s else String.mk (pythonTitle (stripChars s.data))

/-- `transform_description` of src/common/transforms.py. -/
def transform_description (s : String) : String := capitalize_first_letter s

/-! ## The measure/unit regex `(\d+\.?\d*)\s*([a-zA-Z]{1,3})`
(src/common/transforms.py lines 5-6 and 63-90)

Every character class consumed before the unit group (digits, the optional
dot, whitespace) is disjoint from `[a-zA-Z]`, so the greedy, backtracking-free
scan below computes exactly the first match `re.findall` yields. -/

/-- Try to match `(\d+\.?\d*)\s*([a-zA-Z]{1,3})` anchored at the head of `l`;
on success return (group 1, group 2). -/
def matchMeasureAt (l : List Char) : Option (List Char × List Char) :=
  let ds1 := l.takeWhile isDigitChar
  if ds1 = [] then none
  else
    let r1 := l.dropWhile isDigitChar
    let hasDot := r1.head? = some '.'
    let r2 := if hasDot then r1.tail else r1
    let ds2 := r2.takeWhile isDigitChar
    let r3 := r2.dropWhile isDigitChar
    let r4 := r3.dropWhile Char.isWhitespace
    let letters := (r4.takeWhile isAsciiLetter).take 3
    if letters = [] then none
    else some (ds1 ++ (if hasDot then ['.'] else []) ++ ds2, letters)

/-- Scan positions left to right for the first match of the measure regex,
exactly as `re.findall(measure_regex, s)[0]` selects it. -/
def findMeasure : List Char → Option (List Char × List Char)
  | [] => none
  | c :: rest =>
    match matchMeasureAt (c :: rest) with
    | some g => some g
    | none => findMeasure rest

/-- `extract_measure` of src/common/transforms.py: group 1 of the first match
of the measure regex, else `None`. -/
def extract_measure (s : String) : Option String :=
  (findMeasure s.data).map (fun g => String.mk g.1)

/-- `extract_unit` of src/common/transforms.py: group 2 of the first match of
the same measure regex, else `None`. -/
def extract_unit (s : String) : Option String :=
  (findMeasure s.data).map (fun g => String.mk g.2)

/-! ## The package-units regex `[x]\s*(\d+)` (src/common/transforms.py) -/

/-- Try to match `[x]\s*(\d+)` anchored at the head of `l`. -/
def matchPackageAt : List Char → Option (List Char)
  | [] => none
  | c :: rest =>
    if c = 'x' then
      let r := rest.dropWhile Char.isWhitespace
      let ds := r.takeWhile isDigitChar
      if ds = [] then none else some ds
    else none

/-- First match of the package-units regex, scanning left to right. -/
def findPackage : List Char → Option (List Char)
  | [] => none
  | c :: rest =>
    match matchPackageAt (c :: rest) with
    | some g => some g
    | none => findPackage rest

/-- `extract_package_units` of src/common/transforms.py. -/
def extract_package_units (s : String) : Option String :=
  (findPackage s.data).map String.mk

/-- `extract_measure_and_unit` of src/common/transforms.py: the three
extractions are independent; `remove_unit` is the identity in the source, so
the package count is extracted from the original string. -/
def extract_measure_and_unit (s : String) :
    Option String × Option String × Option String :=
  (extract_measure s, extract_unit s, extract_package_units s)

/-! ## `extract_iva` (src/core/data_processor.py lines 123-133)

`re.search(r'\(\s*[Gg]\s*(\d+)\s*\)', description)`, returning the captured
digits as an integer. -/

/-- Try to match `\(\s*[Gg]\s*(\d+)\s*\)` anchored at the head of `l`. -/
def matchIvaAt : List Char → Option Nat
  | [] => none
  | c :: rest =>
    if c = '(' then
      let r1 := rest.dropWhile Char.isWhitespace
      match r1 with
      | [] => none
      | g :: r2 =>
        if g = 'G' ∨ g = 'g' then
          let r3 := r2.dropWhile Char.isWhitespace
          let ds := r3.takeWhile isDigitChar
          if ds = [] then none
          else
            let r4 := (r3.dropWhile isDigitChar).dropWhile Char.isWhitespace
            match r4 with
            | ')' :: _ => some (digitsToNat ds)
            | _ => none
        else none
    else none

/-- First match of the IVA pattern, scanning left to right as `re.search`. -/
def findIva : List Char → Option Nat
  | [] => none
  | c :: rest =>
    match matchIvaAt (c :: rest) with
    | some n => some n
    | none => findIva rest

/-- `extract_iva` of src/core/data_processor.py. -/
def extract_iva (s : String) : Option Nat := findIva s.data

/-! ## `infer_and_transform_date` (src/common/transforms.py lines 9-15)

`dateutil.parser.parse(date_str, dayfirst=True, fuzzy=True)` is an external
library; it is modelled on the two shapes the pipeline feeds it — strict
`DD/MM/YYYY` (day first) and already-canonical `YYYY-MM-DD` — and returns
`none` elsewhere.  No claim depends on the accepted date grammar beyond
parse-failure being mapped to `None`. -/

def twoDigits (l : List Char) : Option Nat :=
  match l with
  | [a, b] => if isDigitChar a ∧ isDigitChar b then some (digitsToNat [a, b]) else none
  | _ => none

def fourDigits (l : List Char) : Option Nat :=
  match l with
  | [a, b, c, d] =>
    if isDigitChar a ∧ isDigitChar b ∧ isDigitChar c ∧ isDigitChar d then
      some (digitsToNat [a, b, c, d])
    else none
  | _ => none

def padTwo (n : Nat) : String :=
  if n < 10 then "0" ++ toString n else toString n

/-- Model of `infer_and_transform_date`: output is canonical `YYYY-MM-DD`. -/
def infer_and_transform_date (s : String) : Option String :=
  match s.split (· = '/') with
  | [d, m, y] =>
    match twoDigits d.data, twoDigits m.data, fourDigits y.data with
    | some dd, some mm, some yy =>
      if 1 ≤ dd ∧ dd ≤ 31 ∧ 1 ≤ mm ∧ mm ≤ 12 then
        some (toString yy ++ "-" ++ padTwo mm ++ "-" ++ padTwo dd)
      else none
    | _, _, _ => none
  | _ =>
    match s.split (· = '-') with
    | [y, m, d] =>
      match fourDigits y.data, twoDigits m.data, twoDigits d.data with
      | some yy, some mm, some dd =>
        if 1 ≤ dd ∧ dd ≤ 31 ∧ 1 ≤ mm ∧ mm ≤ 12 then
          some (toString yy ++ "-" ++ padTwo mm ++ "-" ++ padTwo dd)
        else none
      | _, _, _ => none
    | _ => none

/-! ## Data model (src/models and the staging DDL of src/core/etl_orchestrator.py)

Tables are lists of rows; row order is an artifact of the embedding (SQL
tables are unordered), surrogate identity columns are modelled by explicit
`next…Id` counters.  `Measure` and `PackageUnits` travel through the pipeline
as the digit strings the extractors produce; `GETDATE()`/`datetime.now()` is
the explicit `now` parameter. -/

abbrev Guid := Nat

structure ProviderRow where
  Id : Nat
  Name : String
  CreateDt : Nat
deriving DecidableEq, Repr

structure ProductRow where
  Id : Nat
  ProductName : String
  Description : Option String
  Price : Option Int
  Measure : Option String
  UnitOfMeasureId : Option Nat
  CreatedDt : Nat
  UpdatedDt : Nat
deriving DecidableEq, Repr

structure ProviderProductRow where
  Id : Nat
  ProductId : Nat
  ProviderId : Nat
  LastReviewDt : Option String
  PackageUnits : Option String
  IVA : Option Nat
  IsValidated : Bool
deriving DecidableEq, Repr

structure UnitOfMeasureRow where
  Id : Nat
  Acronym : String
  Name : String
deriving DecidableEq, Repr

structure ProcessFileRow where
  Id : Nat
  Container : String
  FileName : String
  StatusId : Nat
  ProcessDt : Nat
  BlobSize : Nat
  ContentType : String
  CreatedDt : Nat
  LastModifiedDt : Nat
  ETag : String
  Metadata : String
deriving DecidableEq, Repr

/-- `[Staging].[Provider]` (surrogate id omitted: nothing reads it). -/
structure StgProviderRow where
  Name : String
  BatchGuid : Guid
deriving DecidableEq, Repr

/-- `[Staging].[Product]`. -/
structure StgProductRow where
  ProductName : String
  Description : Option String
  Price : Option Int
  Measure : Option String
  UnitOfMeasureId : Option Nat
  BatchGuid : Guid
deriving DecidableEq, Repr

/-- `[Staging].[Provider_Product]`: the loader writes the placeholder ids `0`
(`'ProductId': 0, 'ProviderId': 0  # Will be updated in merge process`) and no
other identifying data. -/
structure StgProviderProductRow where
  ProductId : Nat
  ProviderId : Nat
  LastReviewDt : Option String
  PackageUnits : Option String
  IVA : Option Nat
  IsValidated : Bool
  BatchGuid : Guid
deriving DecidableEq, Repr

structure Database where
  provider : List ProviderRow
  product : List ProductRow
  providerProduct : List ProviderProductRow
  unitOfMeasure : List UnitOfMeasureRow
  processFile : List ProcessFileRow
  stgProvider : List StgProviderRow
  stgProduct : List StgProductRow
  stgProviderProduct : List StgProviderProductRow
  nextProviderId : Nat
  nextProductId : Nat
  nextProviderProductId : Nat
  nextUnitOfMeasureId : Nat
  nextProcessFileId : Nat
deriving DecidableEq, Repr

/-! ## Generic `MERGE` semantics (SQL Server)

`MERGE target USING source ON cond WHEN MATCHED THEN UPDATE … WHEN NOT
MATCHED THEN INSERT …`: matching is evaluated against the target as of the
statement start; a target row matched by more than one source row raises the
runtime error 8672 ("the MERGE statement attempted to UPDATE the same row
more than once"), modelled as `Except.error`; otherwise each matched target
row is updated from its unique matching source row and one row is inserted
per unmatched source row, identity values assigned sequentially. -/

/-- Insert one row per source element, assigning sequential identity values. -/
def insertRows {R S : Type} (mkRow : Nat → S → R) (start : Nat) : List S → List R
  | [] => []
  | s :: rest => mkRow start s :: insertRows mkRow (start + 1) rest

/-- The `WHEN MATCHED` action on one target row: update it from its matching
source row, if any (under the no-8672 guard the match is unique, so `find?`
picks it). -/
def mergeUpd {K R S : Type} [DecidableEq K] (key : R → K) (skey : S → K)
    (upd : S → R → R) (src : List S) (t : R) : R :=
  match src.find? (fun s => skey s == key t) with
  | some s => upd s t
  | none => t

def mergeRows {K R S : Type} [DecidableEq K] (key : R → K) (skey : S → K)
    (upd : S → R → R) (mkRow : Nat → S → R)
    (target : List R) (src : List S) (nextId : Nat) :
    Except String (List R × Nat) :=
  if target.any (fun t => 2 ≤ src.countP (fun s => skey s == key t)) then
    Except.error "MERGE attempted to update the same target row more than once"
  else
    Except.ok
      (target.map (mergeUpd key skey upd src) ++
        insertRows mkRow nextId
          (src.filter (fun s => ! target.any (fun t => key t == skey s))),
       nextId +
        (src.filter (fun s => ! target.any (fun t => key t == skey s))).length)

/-! ## Fact Merger (`merge_staging_to_fact_tables`,
src/core/etl_orchestrator.py lines 325-397)

Three MERGE statements inside one `engine.begin()` transaction; an exception
anywhere rolls the whole transaction back and re-raises. -/

/-- `SELECT DISTINCT Name FROM Staging.Provider WHERE BatchGuid = :batch_guid`. -/
def stagedProviderNames (db : Database) (b : Guid) : List String :=
  ((db.stgProvider.filter (fun r => r.BatchGuid == b)).map (·.Name)).dedup

def mkProviderRow (now : Nat) (id : Nat) (n : String) : ProviderRow :=
  ⟨id, n, now⟩

/-- Step 1: provider upsert — insert-only (`WHEN NOT MATCHED`), matched by
exact name; no `WHEN MATCHED` clause, hence no update and no 8672 error. -/
def mergeProviders (db : Database) (b : Guid) (now : Nat) : Database :=
  { db with
    provider := db.provider ++
      insertRows (mkProviderRow now) db.nextProviderId
        ((stagedProviderNames db b).filter
          (fun n => ! db.provider.any (fun t => t.Name == n)))
    nextProviderId := db.nextProviderId +
      ((stagedProviderNames db b).filter
        (fun n => ! db.provider.any (fun t => t.Name == n))).length }

/-- The step-2 source: staged product rows of the batch. -/
def productSourceRows (db : Database) (b : Guid) : List StgProductRow :=
  db.stgProduct.filter (fun r => r.BatchGuid == b)

/-- The step-2 `WHEN MATCHED THEN UPDATE` assignment. -/
def updProduct (now : Nat) (s : StgProductRow) (t : ProductRow) : ProductRow :=
  { t with Description := s.Description, Price := s.Price, Measure := s.Measure,
           UnitOfMeasureId := s.UnitOfMeasureId, UpdatedDt := now }

/-- The step-2 `WHEN NOT MATCHED THEN INSERT` row. -/
def mkProductRow (now : Nat) (id : Nat) (s : StgProductRow) : ProductRow :=
  ⟨id, s.ProductName, s.Description, s.Price, s.Measure, s.UnitOfMeasureId, now, now⟩

/-- Step 2: product upsert, matched on the natural key `ProductName`. -/
def mergeProducts (db : Database) (b : Guid) (now : Nat) : Except String Database :=
  match mergeRows (fun t => t.ProductName) (fun s => s.ProductName)
      (updProduct now) (mkProductRow now) db.product (productSourceRows db b)
      db.nextProductId with
  | Except.error e => Except.error e
  | Except.ok (tbl, nid) => Except.ok { db with product := tbl, nextProductId := nid }

/-- A row of the step-3 source query. -/
structure PPSourceRow where
  ProductId : Nat
  ProviderId : Nat
  LastReviewDt : Option String
  PackageUnits : Option String
  IVA : Option Nat
  IsValidated : Bool
deriving DecidableEq, Repr

/-- The step-3 source:
```sql
FROM Staging.Provider_Product spp
INNER JOIN Staging.Product  sp  ON spp.BatchGuid = sp.BatchGuid
INNER JOIN Product          p   ON p.ProductName = sp.ProductName
INNER JOIN Staging.Provider spr ON spp.BatchGuid = spr.BatchGuid
INNER JOIN Provider         pr  ON pr.Name = spr.Name
WHERE spp.BatchGuid = :batch_guid
```
The only condition tying `spp` to `sp` and `spr` is the shared batch guid, so
the ids are re-derived from the cross product of the batch's staged products
and staged providers. -/
def ppSourceRows (db : Database) (b : Guid) : List PPSourceRow :=
  (db.stgProviderProduct.filter (fun r => r.BatchGuid == b)).flatMap (fun spp =>
    (db.stgProduct.filter (fun r => r.BatchGuid == b)).flatMap (fun sp =>
      (db.product.filter (fun p => p.ProductName == sp.ProductName)).flatMap (fun p =>
        (db.stgProvider.filter (fun r => r.BatchGuid == b)).flatMap (fun spr =>
          (db.provider.filter (fun pr => pr.Name == spr.Name)).map (fun pr =>
            ⟨p.Id, pr.Id, spp.LastReviewDt, spp.PackageUnits, spp.IVA, spp.IsValidated⟩)))))

def updPP (s : PPSourceRow) (t : ProviderProductRow) : ProviderProductRow :=
  { t with LastReviewDt := s.LastReviewDt, PackageUnits := s.PackageUnits,
           IVA := s.IVA, IsValidated := s.IsValidated }

def mkPPRow (id : Nat) (s : PPSourceRow) : ProviderProductRow :=
  ⟨id, s.ProductId, s.ProviderId, s.LastReviewDt, s.PackageUnits, s.IVA, s.IsValidated⟩

/-- Step 3: provider-product upsert, matched on `(ProductId, ProviderId)`. -/
def mergeProviderProducts (db : Database) (b : Guid) (_now : Nat) :
    Except String Database :=
  match mergeRows (fun t => (t.ProductId, t.ProviderId))
      (fun s => (s.ProductId, s.ProviderId)) updPP mkPPRow
      db.providerProduct (ppSourceRows db b) db.nextProviderProductId with
  | Except.error e => Except.error e
  | Except.ok (tbl, nid) =>
    Except.ok { db with providerProduct := tbl, nextProviderProductId := nid }

/-- `merge_staging_to_fact_tables`: the three steps in order inside one
transaction; an error in any step aborts the chain. -/
def merge_staging_to_fact_tables (db : Database) (b : Guid) (now : Nat) :
    Except String Database :=
  match mergeProducts (mergeProviders db b now) b now with
  | Except.error e => Except.error e
  | Except.ok db2 =>
    match mergeProviderProducts db2 b now with
    | Except.error e => Except.error e
    | Except.ok db3 => Except.ok db3

/-- The observable effect of calling `merge_staging_to_fact_tables` against
the store: on success the transaction commits; on an exception
`engine.begin()` rolls the whole transaction back, leaving the database as it
was (the exception then propagates to the caller). -/
def run_merge (db : Database) (b : Guid) (now : Nat) : Database :=
  match merge_staging_to_fact_tables db b now with
  | Except.ok d => d
  | Except.error _ => db

/-! ## Record Normalizer (`apply_transformations`,
src/core/data_processor.py lines 135-193)

A DataFrame is modelled over the five canonical columns the pipeline
recognizes, with per-frame presence flags (the alias renaming
`Producto → Description`, `Fecha 1 → LastReviewDt`, `Provedor → ProviderName`,
`Precio → Price`, `IVA → PercentageIVA` is applied before this model, so
"the frame has the PercentageIVA column" includes the `IVA` alias; other
columns pass through untouched and carry no information the pipeline reads).
A cell is `Option String` (`none` is a `NaN`). -/

structure RawRow where
  description : Option String
  lastReviewDt : Option String
  providerName : Option String
  price : Option String
  percentageIVA : Option String
deriving DecidableEq, Repr

structure RawFrame where
  hasDescription : Bool
  hasLastReviewDt : Bool
  hasProviderName : Bool
  hasPrice : Bool
  hasPercentageIVA : Bool
  rows : List RawRow
deriving DecidableEq, Repr

/-- A row of the transformed frame.  A field guarded by an absent column flag
is `none` and meaningless (the column does not exist).  `percentageIVAIn`
retains the original cell: when the frame has a `PercentageIVA` column but no
`Description` column the source keeps those raw values untouched. -/
structure TransformedRow where
  description : Option String
  lastReviewDt : Option String
  providerName : Option String
  price : Option String
  percentageIVAIn : Option String
  rawPrice : Option String
  cleanPrice : Option Int
  isValidPrice : Bool
  rawLastReviewDt : Option String
  cleanLastReviewDt : Option String
  rawDescription : Option String
  cleanDescription : Option String
  measure : Option String
  unitOfMeasure : Option String
  packageUnits : Option String
  percentageIVA : Option Nat
  rawProviderName : Option String
  cleanProviderName : Option String
deriving DecidableEq, Repr

structure TransFrame where
  hasDescription : Bool
  hasLastReviewDt : Bool
  hasProviderName : Bool
  hasPrice : Bool
  hasPercentageIVA : Bool
  rows : List TransformedRow
deriving DecidableEq, Repr

/-- `str(x)` on a cell: `str` of a `NaN` is the string `"nan"`. -/
def strOfCell (o : Option String) : String := o.getD "nan"

/-- `x.lower()` on ASCII text. -/
def lowerStr (s : String) : String := String.mk (s.data.map Char.toLower)

/-- The per-row computation of `apply_transformations`
(src/core/data_processor.py lines 152-182), column by column:
each `df['…'] = df['…'].apply(lambda x: f(str(x)) if pd.notna(x) else None)`
becomes an `Option.bind`/`Option.map` on the cell, guarded by the
presence flag of the column the source tests with `if '…' in df.columns`.
`PercentageIVA` is re-derived from the description exactly when the frame has
BOTH a `Description` column and a `PercentageIVA` column (the source guards
the derivation with `if 'PercentageIVA' in df.columns:` nested inside
`if 'Description' in df.columns:`). -/
def transformRow (hasD hasL hasPr hasP hasIVA : Bool) (r : RawRow) : TransformedRow where
  description := r.description
  lastReviewDt := r.lastReviewDt
  providerName := r.providerName
  price := r.price
  percentageIVAIn := r.percentageIVA
  rawPrice := if hasP then some (strOfCell r.price) else none
  cleanPrice := if hasP then r.price.bind transform_price else none
  isValidPrice := hasP && r.price.isSome && (r.price.bind transform_price).isSome
  rawLastReviewDt := if hasL then some (strOfCell r.lastReviewDt) else none
  cleanLastReviewDt := if hasL then r.lastReviewDt.bind infer_and_transform_date else none
  rawDescription := if hasD then some (strOfCell r.description) else none
  cleanDescription := if hasD then r.description.map transform_description else none
  measure := if hasD then r.description.bind extract_measure else none
  unitOfMeasure := if hasD then (r.description.bind extract_unit).map lowerStr else none
  packageUnits := if hasD then r.description.bind extract_package_units else none
  percentageIVA := if hasD && hasIVA then r.description.bind extract_iva else none
  rawProviderName := if hasPr then some (strOfCell r.providerName) else none
  cleanProviderName := if hasPr then
      r.providerName.map (fun x => String.mk (pythonTitle (transform_provider_name x).data))
    else none

/-- `df.dropna(how='all')` after the transforms: whenever any of the four
transformable columns exists, its `Raw…` companion (an `astype(str)` column)
is a non-null string on every row, so nothing is dropped; a row can only be
entirely null when the frame carries none of them and its sole recognized
column `PercentageIVA` holds a `NaN`. -/
def rowAllNull (hasD hasL hasPr hasP hasIVA : Bool) (t : TransformedRow) : Bool :=
  !hasD && !hasL && !hasPr && !hasP && hasIVA && t.percentageIVAIn == none

/-- `apply_transformations` of src/core/data_processor.py. -/
def apply_transformations (fr : RawFrame) : TransFrame where
  hasDescription := fr.hasDescription
  hasLastReviewDt := fr.hasLastReviewDt
  hasProviderName := fr.hasProviderName
  hasPrice := fr.hasPrice
  hasPercentageIVA := fr.hasPercentageIVA
  rows :=
    (fr.rows.map (transformRow fr.hasDescription fr.hasLastReviewDt
        fr.hasProviderName fr.hasPrice fr.hasPercentageIVA)).filter
      (fun t => ! rowAllNull fr.hasDescription fr.hasLastReviewDt
        fr.hasProviderName fr.hasPrice fr.hasPercentageIVA t)

/-! ## Staging Loader (`normalize_to_staging_tables_from_dataframe`,
src/core/etl_orchestrator.py lines 217-299)

Each `to_sql(..., if_exists='append')` call commits on its own (it is not
part of the merge transaction), so a `KeyError` on a later column projection
leaves the earlier staging inserts in place; the error then propagates to the
caller.  The projections require, in order: `CleanProviderName`,
then `CleanDescription`/`RawDescription`/`CleanPrice`/`Measure`/
`UnitOfMeasure`, then `CleanLastReviewDt`/`PackageUnits`/`PercentageIVA`. -/

structure StagingSummary where
  providers : Nat
  products : Nat
  provider_products : Nat
deriving DecidableEq, Repr

/-- `pandas.Series.unique()` keeps the first occurrence of each value. -/
def distinctFirst {α : Type} [DecidableEq α] (l : List α) : List α :=
  l.foldl (fun acc a => if a ∈ acc then acc else acc ++ [a]) []

/-- `get_or_create_unit_of_measure` (src/core/etl_orchestrator.py lines
186-214): case-insensitive acronym lookup, creating the unit on a miss. -/
def get_or_create_unit_of_measure (db : Database) (u : String) : Database × Nat :=
  let key := String.mk (stripChars (lowerStr u).data)
  match db.unitOfMeasure.find? (fun r => lowerStr r.Acronym == key) with
  | some r => (db, r.Id)
  | none =>
    ({ db with
        unitOfMeasure := db.unitOfMeasure ++
          [⟨db.nextUnitOfMeasureId, key, String.mk (key.data.map Char.toUpper)⟩]
        nextUnitOfMeasureId := db.nextUnitOfMeasureId + 1 }, db.nextUnitOfMeasureId)

/-- Build the staging product rows in frame order, threading the
unit-of-measure get-or-create through the database. -/
def buildStgProducts (db : Database) (b : Guid) :
    List TransformedRow → Database × List StgProductRow
  | [] => (db, [])
  | t :: rest =>
    let step : Database × Option Nat :=
      match t.unitOfMeasure with
      | some u =>
        let p := get_or_create_unit_of_measure db u
        (p.1, some p.2)
      | none => (db, none)
    let row : StgProductRow :=
      ⟨t.cleanDescription.getD "", t.rawDescription, t.cleanPrice, t.measure, step.2, b⟩
    let next := buildStgProducts step.1 b rest
    (next.1, row :: next.2)

/-- `normalize_to_staging_tables_from_dataframe` of
src/core/etl_orchestrator.py: returns the database after the staging writes
performed so far together with either the insert summary or the first raised
error (a missing-column `KeyError`). -/
def normalize_to_staging_tables_from_dataframe (db : Database) (tf : TransFrame)
    (b : Guid) : Database × Except String StagingSummary :=
  if tf.rows.isEmpty then (db, Except.ok ⟨0, 0, 0⟩)
  else if !tf.hasProviderName then (db, Except.error "KeyError CleanProviderName")
  else
    let names := distinctFirst (tf.rows.filterMap (·.cleanProviderName))
    let db1 :=
      if names.isEmpty then db
      else { db with stgProvider := db.stgProvider ++ names.map (fun n => ⟨n, b⟩) }
    if !(tf.hasDescription && tf.hasPrice) then
      (db1, Except.error "KeyError product columns")
    else
      let prodRows := tf.rows.filter (fun t => t.cleanDescription.isSome)
      let built := buildStgProducts db1 b prodRows
      let db2 :=
        if built.2.isEmpty then built.1
        else { built.1 with stgProduct := built.1.stgProduct ++ built.2 }
      if !(tf.hasLastReviewDt && tf.hasPercentageIVA) then
        (db2, Except.error "KeyError provider product columns")
      else
        let ppRows := tf.rows.map (fun t =>
          StgProviderProductRow.mk 0 0 t.cleanLastReviewDt t.packageUnits
            t.percentageIVA false b)
        let db3 :=
          if ppRows.isEmpty then db2
          else { db2 with stgProviderProduct := db2.stgProviderProduct ++ ppRows }
        (db3, Except.ok ⟨names.length, built.2.length, ppRows.length⟩)

/-! ## File Processing Tracker (src/core/etl_orchestrator.py lines 19-105) -/

/-- `check_process_file_status`: the first `ProcessFile` row matching
`(Container, FileName)`, if any. -/
def check_process_file_status (db : Database) (container filename : String) :
    Option ProcessFileRow :=
  db.processFile.find? (fun r => r.Container == container && r.FileName == filename)

/-- `insert_process_file_record`: new row with `StatusId = 2` (In Progress);
returns the generated id. -/
def insert_process_file_record (db : Database) (container filename : String)
    (blobSize : Nat) (contentType : String) (createdDt lastModifiedDt : Nat)
    (etag metadata : String) (now : Nat) : Database × Nat :=
  ({ db with
      processFile := db.processFile ++
        [⟨db.nextProcessFileId, container, filename, 2, now, blobSize, contentType,
          createdDt, lastModifiedDt, etag, metadata⟩]
      nextProcessFileId := db.nextProcessFileId + 1 }, db.nextProcessFileId)

/-- `update_process_file_status`: set `StatusId` and refresh `ProcessDt` on
the row with the given id. -/
def update_process_file_status (db : Database) (id statusId now : Nat) : Database :=
  { db with
    processFile := db.processFile.map (fun r =>
      if r.Id == id then { r with StatusId := statusId, ProcessDt := now } else r) }

/-! ## CSV pipeline (`process_csv_from_stream`,
src/core/etl_orchestrator.py lines 554-659) -/

structure ProcessingResult where
  status : Bool
  rowsProcessed : Nat
  rowsWritten : Nat
deriving DecidableEq, Repr

/-- The work `process_csv_from_stream` performs after the tracker admits the
file: parse (empty file raises), transform, stage, merge, then mark the
tracker row `3` (Succeeded); any raised error is caught by the outer handler,
which marks the tracker row `1` (Failed) and reports failure.  A merge error
rolls back only the merge transaction — the staging writes already committed
stay. -/
def runCsvPipeline (db : Database) (pfId : Nat) (fr : RawFrame) (b : Guid)
    (now : Nat) : Database × ProcessingResult :=
  if fr.rows.isEmpty then (update_process_file_status db pfId 1 now, ⟨false, 0, 0⟩)
  else
    let tf := apply_transformations fr
    match normalize_to_staging_tables_from_dataframe db tf b with
    | (db2, Except.error _) =>
      (update_process_file_status db2 pfId 1 now, ⟨false, 0, 0⟩)
    | (db2, Except.ok summary) =>
      match merge_staging_to_fact_tables db2 b now with
      | Except.error _ =>
        (update_process_file_status db2 pfId 1 now, ⟨false, 0, 0⟩)
      | Except.ok db3 =>
        (update_process_file_status db3 pfId 3 now,
          ⟨true, tf.rows.length,
            summary.providers + summary.products + summary.provider_products⟩)

/-- `process_csv_from_stream` of src/core/etl_orchestrator.py: consult the
tracker under the fixed container `"products-dev"`; a `StatusId = 3`
(Succeeded) row short-circuits the whole run with a success result and no
write of any kind; otherwise create or reset the tracker row to `2`
(In Progress) and run the pipeline.  `fr` stands for the parsed CSV content,
`csvSize` for `len(csv_data)`. -/
def process_csv_from_stream (db : Database) (csvSize : Nat) (blobName : String)
    (fr : RawFrame) (b : Guid) (now : Nat) : Database × ProcessingResult :=
  match check_process_file_status db "products-dev" blobName with
  | some pf =>
    if pf.StatusId = 3 then (db, ⟨true, 0, 0⟩)
    else runCsvPipeline (update_process_file_status db pf.Id 2 now) pf.Id fr b now
  | none =>
    let ins := insert_process_file_record db "products-dev" blobName csvSize
      "text/csv" now now "" "\x7b\x7d" now
    runCsvPipeline ins.1 ins.2 fr b now

/-! ## Invoice pipeline (src/core/etl_orchestrator.py lines 400-487 and
838-924) -/

/-- A product dictionary extracted from an invoice (missing keys default to
`""` via `product.get(…, "")`). -/
structure InvoiceProduct where
  producto : String
  provedor : String
  precio : String
  porcentajeIVA : String
deriving DecidableEq, Repr

/-- The outcome of the Azure OpenAI vision call, at the boundary:
a 200 response whose content parses as JSON (`parsed`), a 200 response whose
content is not valid JSON (`malformedContent`), or a non-200 status /
transport exception (`httpFailure`). -/
inductive VisionResponse : Type where
  | parsed (rows : List InvoiceProduct) : VisionResponse
  | malformedContent (raw : String) : VisionResponse
  | httpFailure (statusCode : Nat) : VisionResponse
deriving DecidableEq, Repr

/-- Case-sensitive substring test (Python `in` on strings). -/
def containsSub (hay needle : String) : Bool :=
  decide (needle.data <:+: hay.data)

/-- `extract_invoice_data_from_image` of src/core/etl_orchestrator.py: the
mock extraction — two fixed products when the (lowercased) image name
mentions `factura`/`invoice`, one generic product otherwise. -/
def extract_invoice_data_from_image (imageName : String) : List InvoiceProduct :=
  if containsSub (lowerStr imageName) "factura" ||
     containsSub (lowerStr imageName) "invoice" then
    [⟨"Arroz Premium 1kg", "Distribuidora San Juan", "2500.00", "19"⟩,
     ⟨"Aceite Vegetal 500ml", "Distribuidora San Juan", "4200.00", "19"⟩]
  else
    [⟨"Producto Generico", "Proveedor Generico", "1000.00", "19"⟩]

/-- `extract_invoice_data_with_openai` of src/core/etl_orchestrator.py:
missing configuration, a JSON parse failure, a non-200 status and any raised
exception all fall back to the mock extraction; only a 200 response with
JSON-parsable content returns the service's rows. -/
def extract_invoice_data_with_openai (configPresent : Bool) (resp : VisionResponse)
    (imageName : String) : List InvoiceProduct :=
  if !configPresent then extract_invoice_data_from_image imageName
  else
    match resp with
    | VisionResponse.parsed rows => rows
    | VisionResponse.malformedContent _ => extract_invoice_data_from_image imageName
    | VisionResponse.httpFailure _ => extract_invoice_data_from_image imageName

/-- The DataFrame `process_invoice_image_direct` builds from the extracted
products: columns `Producto`, `Fecha 1`, `Provedor`, `Precio`,
`Porcentaje de IVA`.  After the alias renaming the first four become
`Description`, `LastReviewDt`, `ProviderName`, `Price`; `Porcentaje de IVA`
is NOT in the alias table of `apply_transformations`, so the frame has no
`PercentageIVA` column. -/
def invoiceFrame (products : List InvoiceProduct) (dateStr : String) : RawFrame where
  hasDescription := true
  hasLastReviewDt := true
  hasProviderName := true
  hasPrice := true
  hasPercentageIVA := false
  rows := products.map (fun p => ⟨some p.producto, some dateStr, some p.provedor,
    some p.precio, none⟩)

/-- `process_invoice_image_direct` of src/core/etl_orchestrator.py: extract
(with mock fallback), build the DataFrame, raise when it is empty, transform,
stage, merge; any raised error is caught and reported as a failed result.
Returns the observable database and whether the run succeeded. -/
def process_invoice_image_direct (db : Database) (configPresent : Bool)
    (resp : VisionResponse) (imageName dateStr : String) (b : Guid) (now : Nat) :
    Database × Bool :=
  let products := extract_invoice_data_with_openai configPresent resp imageName
  let fr := invoiceFrame products dateStr
  if fr.rows.isEmpty then (db, false)
  else
    let tf := apply_transformations fr
    match normalize_to_staging_tables_from_dataframe db tf b with
    | (db2, Except.error _) => (db2, false)
    | (db2, Except.ok _) =>
      match merge_staging_to_fact_tables db2 b now with
      | Except.error _ => (db2, false)
      | Except.ok db3 => (db3, true)

/-! ## Connection Resilience -/

/-- Modelled from the spec: `ensure_connection_established` is imported by
`src/core/database.py` and `src/core/etl_orchestrator.py` from
`common.sql_utils`, but its definition is absent from the source tree (only
its callers and `src/tests/test_database_awakening.py` ship).  Modelled from
spec section 4.6 and the behaviour those tests pin down: probe the store (a
trivial `SELECT 1`, `test_connection` of src/common/sql_utils.py) up to
`maxRetries` times; after the failure of attempt `i` (0-based) that is not
the last, sleep `2 ^ i` seconds; a failure of the last attempt re-raises.
`connectOk i` is the outcome of the `i`-th probe; the result records the
sleep delays performed, the number of attempts made, and whether a probe
succeeded (`false` = the connectivity error propagated). -/
def ensureConnGo (connectOk : Nat → Bool) (attempt : Nat) :
    Nat → List Nat × Nat × Bool
  | 0 => ([], 0, false)
  | 1 => ([], 1, connectOk attempt)
  | n + 2 =>
    if connectOk attempt then ([], 1, true)
    else
      let rest := ensureConnGo connectOk (attempt + 1) (n + 1)
      (2 ^ attempt :: rest.1, rest.2.1 + 1, rest.2.2)

/-- Modelled from the spec (see `ensureConnGo`): the retry loop entered at
attempt 0. -/
def ensure_connection_established (connectOk : Nat → Bool) (maxRetries : Nat) :
    List Nat × Nat × Bool :=
  ensureConnGo connectOk 0 maxRetries

/-! # Theorems settling the specification claims -/

/-! ## Character-class facts -/

lemma isAsciiLower_eq_false_of_upperOrDigit (b : Char)
    (h : isAsciiUpper b = true ∨ isDigitChar b = true) :
    isAsciiLower b = false := by
  simp [isAsciiUpper, isDigitChar] at h
  simp [isAsciiLower]
  omega

/-! ## C5: `transform_price` -/

lemma notSep_of_digit (c : Char) (h : isDigitChar c = true) :
    decide (c ≠ '.' ∧ c ≠ ',' ∧ c ≠ '$' ∧ c ≠ ' ') = true := by
  simp [isDigitChar] at h
  simp only [decide_eq_true_eq]
  refine ⟨?_, ?_, ?_, ?_⟩ <;> rintro rfl <;> exact absurd h (by decide)

lemma cleanPriceChars_of_alphabet (l : List Char)
    (hl : ∀ c ∈ l, isDigitChar c = true ∨ c = '.' ∨ c = ',' ∨ c = '$' ∨ c = ' ') :
    cleanPriceChars l = l.filter isDigitChar := by
  unfold cleanPriceChars
  refine List.filter_congr ?_
  intro c hc
  rcases hl c hc with hd | rfl | rfl | rfl | rfl
  · rw [hd, notSep_of_digit c hd]
  · decide
  · decide
  · decide
  · decide

lemma parseDecimalModel_all_digits (l : List Char) (hne : l ≠ [])
    (hall : l.all isDigitChar = true) :
    parseDecimalModel l = some ((digitsToNat l : Int)) := by
  match l with
  | [] => exact absurd rfl hne
  | c :: rest =>
    have hc : isDigitChar c = true := List.all_eq_true.mp hall c (by simp)
    have hcp : ¬ c = '+' := by rintro rfl; exact absurd hc (by decide)
    have hcm : ¬ c = '-' := by rintro rfl; exact absurd hc (by decide)
    simp [parseDecimalModel, hcp, hcm, hall]

/-- C5: for every price string over digits and the separator characters
`.`/`,`/`$`/space, `transform_price` removes every separator (treating
neither `.` nor `,` as a decimal point) and parses the remaining digit
characters as an arbitrary-precision integer value — so `"$ 1.500,50"` yields
`150050` and `"1,000"` yields `1000` — and an input that still fails to parse
after the stripping (such as `"abc"`, whose cleaned form contains non-digit
characters) yields `none`. -/
theorem transform_price_strips_separators :
    (∀ s : String,
        (∀ c ∈ s.data, isDigitChar c = true ∨ c = '.' ∨ c = ',' ∨ c = '$' ∨ c = ' ') →
        transform_price s =
          if s.data.filter isDigitChar = [] then none
          else some ((digitsToNat (s.data.filter isDigitChar) : Int))) ∧
    transform_price "$ 1.500,50" = some 150050 ∧
    transform_price "1,000" = some 1000 ∧
    transform_price "abc" = none := by
  refine ⟨?_, by decide, by decide, by decide⟩
  intro s hs
  unfold transform_price
  rw [cleanPriceChars_of_alphabet s.data hs]
  by_cases h : s.data.filter isDigitChar = []
  · rw [h, if_pos rfl]; rfl
  · rw [if_neg h]
    refine parseDecimalModel_all_digits _ h ?_
    rw [List.all_eq_true]
    intro c hc
    exact (List.mem_filter.mp hc).2

/-- Witness for C5: the universally quantified part of
`transform_price_strips_separators` applied at the concrete input `"12,3"`. -/
theorem transform_price_strips_separators_witness :
    transform_price "12,3" = some 123 := by
  have h := transform_price_strips_separators.1 "12,3" (by decide)
  exact h.trans (by decide)

/-! ## C9: `separate_camel_case` is idempotent -/

lemma sepBoundary_right_space (a : Char) : sepBoundary a ' ' = false := by
  have h : (isAsciiUpper ' ' || isDigitChar ' ') = false := by decide
  simp [sepBoundary, h]

lemma sepBoundary_left_space (b : Char) : sepBoundary ' ' b = false := by
  have h : isAsciiLower ' ' = false := by decide
  simp [sepBoundary, h]

/-- A character that can stand on the right of a boundary (uppercase or
digit) is not lowercase, so it can never stand on the left of one. -/
lemma sepBoundary_of_right (a b c : Char) (h : sepBoundary a b = true) :
    sepBoundary b c = false := by
  simp only [sepBoundary, Bool.and_eq_true, Bool.or_eq_true] at h
  have hb := isAsciiLower_eq_false_of_upperOrDigit b h.2
  simp [sepBoundary, hb]

lemma sepCamel_cons_head (b : Char) (rest : List Char) :
    ∃ t, sepCamel (b :: rest) = b :: t := by
  cases rest with
  | nil => exact ⟨[], rfl⟩
  | cons c r =>
    by_cases h : sepBoundary b c = true
    · exact ⟨' ' :: c :: sepCamel r, by simp [sepCamel, h]⟩
    · exact ⟨sepCamel (c :: r), by simp [sepCamel, h]⟩

lemma sepCamel_idem_aux :
    ∀ (n : Nat) (l : List Char), l.length ≤ n →
      sepCamel (sepCamel l) = sepCamel l := by
  intro n
  induction n with
  | zero =>
    intro l hl
    have hn : l = [] := List.length_eq_zero.mp (Nat.le_zero.mp hl)
    subst hn; rfl
  | succ n ih =>
    intro l hl
    match l with
    | [] => rfl
    | [a] => rfl
    | a :: b :: rest =>
      have hrest : rest.length ≤ n := by simp at hl; omega
      have hbrest : (b :: rest).length ≤ n := by simp at hl ⊢; omega
      by_cases hb : sepBoundary a b = true
      · have e1 : sepCamel (a :: b :: rest) = a :: ' ' :: b :: sepCamel rest := by
          simp [sepCamel, hb]
        rw [e1]
        have e2 : sepCamel (a :: ' ' :: b :: sepCamel rest)
            = a :: sepCamel (' ' :: b :: sepCamel rest) := by
          simp [sepCamel, sepBoundary_right_space]
        rw [e2]
        have e3 : sepCamel (' ' :: b :: sepCamel rest)
            = ' ' :: sepCamel (b :: sepCamel rest) := by
          simp [sepCamel, sepBoundary_left_space]
        rw [e3]
        have e4 : sepCamel (b :: sepCamel rest) = b :: sepCamel rest := by
          cases hX : sepCamel rest with
          | nil => rfl
          | cons c t =>
            have hbc : sepBoundary b c = false := sepBoundary_of_right a b c hb
            have e5 : sepCamel (b :: c :: t) = b :: sepCamel (c :: t) := by
              simp [sepCamel, hbc]
            rw [e5, ← hX, ih rest hrest]
        rw [e4]
      · obtain ⟨t, ht⟩ := sepCamel_cons_head b rest
        have e1 : sepCamel (a :: b :: rest) = a :: sepCamel (b :: rest) := by
          simp [sepCamel, hb]
        rw [e1, ht]
        have e2 : sepCamel (a :: b :: t) = a :: sepCamel (b :: t) := by
          simp [sepCamel, hb]
        rw [e2]
        have e3 : sepCamel (b :: t) = b :: t := by
          have h4 := ih (b :: rest) hbrest
          rw [ht] at h4
          exact h4
        rw [e3]

/-- C9: `separate_camel_case` is idempotent — applying it twice to any string
yields the same result as applying it once; a single application inserts a
space at each lowercase-to-uppercase and lowercase-to-digit transition, as
the two example conjuncts show. -/
theorem separate_camel_case_idempotent :
    (∀ s : String,
        separate_camel_case (separate_camel_case s) = separate_camel_case s) ∧
    separate_camel_case "HarinaDeTrigo" = "Harina De Trigo" ∧
    separate_camel_case "Producto123" = "Producto 123" := by
  refine ⟨?_, by decide, by decide⟩
  intro s
  unfold separate_camel_case
  have h : (String.mk (sepCamel s.data)).data = sepCamel s.data := rfl
  rw [h, sepCamel_idem_aux s.data.length s.data le_rfl]

/-! ## C10: `extract_measure` and `extract_unit` are `none` together -/

/-- C10: `extract_measure s` is `none` exactly when `extract_unit s` is
`none` — both project the first match of the same measure-and-unit regex —
and consequently, in every row `apply_transformations` produces, the
`Measure` and `UnitOfMeasure` fields are either both populated or both
`none`. -/
theorem extract_measure_unit_none_iff :
    (∀ s : String, (extract_measure s = none ↔ extract_unit s = none)) ∧
    (∀ (fr : RawFrame), ∀ r ∈ (apply_transformations fr).rows,
        (r.measure = none ↔ r.unitOfMeasure = none)) := by
  have base : ∀ s : String, (extract_measure s = none ↔ extract_unit s = none) := by
    intro s
    unfold extract_measure extract_unit
    cases findMeasure s.data <;> simp
  refine ⟨base, ?_⟩
  intro fr r hr
  simp only [apply_transformations, List.mem_filter, List.mem_map] at hr
  obtain ⟨⟨r0, _, rfl⟩, -⟩ := hr
  by_cases hD : fr.hasDescription = true
  · simp only [transformRow, hD, if_true]
    cases hd : r0.description with
    | none => simp
    | some d =>
      show extract_measure d = none ↔ (extract_unit d).map lowerStr = none
      rw [Option.map_eq_none']
      exact base d
  · have hD2 : fr.hasDescription = false := by
      cases h : fr.hasDescription
      · rfl
      · exact absurd h hD
    simp [transformRow, hD2]

/-- Witness frame for C10: a one-row frame whose description carries a
measure. -/
def c10Frame : RawFrame :=
  ⟨true, true, true, true, true, [⟨some "Arroz 500g", none, none, none, none⟩]⟩

/-- The transformed row of `c10Frame`. -/
def c10Row : TransformedRow :=
  transformRow true true true true true ⟨some "Arroz 500g", none, none, none, none⟩

/-- Witness for C10: both parts of `extract_measure_unit_none_iff` applied at
concrete inputs, the row-membership hypothesis discharged by evaluation. -/
theorem extract_measure_unit_none_iff_witness :
    (extract_measure "Solo texto" = none ↔ extract_unit "Solo texto" = none) ∧
    (c10Row.measure = none ↔ c10Row.unitOfMeasure = none) :=
  ⟨extract_measure_unit_none_iff.1 "Solo texto",
   extract_measure_unit_none_iff.2 c10Frame c10Row (by decide)⟩

/-! ## C6: how `apply_transformations` treats `PercentageIVA`

The claim says: derive `PercentageIVA` from the description when the column
is absent, keep the provided values when it is present.  The source
(src/core/data_processor.py lines 176-177) does the opposite — the derivation
is guarded by `if 'PercentageIVA' in df.columns:` (nested inside
`if 'Description' in df.columns:`), so a present column is overwritten from
the description and an absent column is never created. -/

/-- A frame WITH a `PercentageIVA` column: the provided value is `"5"`, the
description's tax annotation says 13. -/
def c6FramePresent : RawFrame :=
  ⟨true, false, false, false, true, [⟨some "Foo (G13)", none, none, none, some "5"⟩]⟩

/-- A frame WITHOUT a `PercentageIVA` column, whose description carries the
tax annotation `(G13)`. -/
def c6FrameAbsent : RawFrame :=
  ⟨true, false, false, false, false, [⟨some "Bar (G13)", none, none, none, none⟩]⟩

/-- Counterexample for C6, at two concrete inputs.  With a `PercentageIVA`
column holding `"5"` and a description annotated `(G13)`, the output column
holds the derived `13` — the provided value is not kept (the claim demands
`[some 5]`; the `==`-conjunct evaluates that reading to `false`).  Without a
`PercentageIVA` column, no value is derived: the output frame still has no
such column. -/
theorem apply_transformations_iva_counterexample :
    (apply_transformations c6FramePresent).rows.map (·.percentageIVA) = [some 13] ∧
    (((apply_transformations c6FramePresent).rows.map (·.percentageIVA))
        == [some (5 : Nat)]) = false ∧
    (apply_transformations c6FrameAbsent).hasPercentageIVA = false ∧
    (apply_transformations c6FrameAbsent).rows.map (·.percentageIVA) = [none] := by
  refine ⟨by decide, by decide, by decide, by decide⟩

/-- C6 amended: when the record set carries BOTH a `Description` and a
`PercentageIVA` column, every output row's `PercentageIVA` is re-derived from
that row's description via tax-code extraction, overwriting any provided
value; when the record set has no `PercentageIVA` column, none is derived —
the output has no such column either. -/
theorem apply_transformations_iva_amended :
    ∀ fr : RawFrame,
      (fr.hasDescription = true → fr.hasPercentageIVA = true →
        ∀ r ∈ (apply_transformations fr).rows,
          r.percentageIVA = r.description.bind extract_iva) ∧
      (fr.hasPercentageIVA = false →
        (apply_transformations fr).hasPercentageIVA = false) := by
  intro fr
  constructor
  · intro hD hIVA r hr
    simp only [apply_transformations, List.mem_filter, List.mem_map] at hr
    obtain ⟨⟨r0, _, rfl⟩, -⟩ := hr
    simp [transformRow, hD, hIVA]
  · intro h
    simp [apply_transformations, h]

/-- Witness for C6 (amended): `apply_transformations_iva_amended` applied at
the concrete frame `c6FramePresent`, with all hypotheses discharged. -/
theorem apply_transformations_iva_amended_witness :
    (transformRow true false false false true
        ⟨some "Foo (G13)", none, none, none, some "5"⟩).percentageIVA =
      (transformRow true false false false true
        ⟨some "Foo (G13)", none, none, none, some "5"⟩).description.bind extract_iva :=
  (apply_transformations_iva_amended c6FramePresent).1 rfl rfl
    (transformRow true false false false true
      ⟨some "Foo (G13)", none, none, none, some "5"⟩) (by decide)

/-! ## C8: `ensure_connection_established` -/

lemma ensureConnGo_spec (ok : Nat → Bool) :
    ∀ (n a : Nat), 1 ≤ n →
      1 ≤ (ensureConnGo ok a n).2.1 ∧
      (ensureConnGo ok a n).2.1 ≤ n ∧
      (ensureConnGo ok a n).1 =
        (List.range ((ensureConnGo ok a n).2.1 - 1)).map (fun i => 2 ^ (a + i)) ∧
      ((ensureConnGo ok a n).2.2 = false ↔ ∀ i < n, ok (a + i) = false) := by
  intro n
  induction n with
  | zero => intro a h; omega
  | succ n ih =>
    intro a _
    match n with
    | 0 =>
      refine ⟨le_rfl, le_rfl, by simp [ensureConnGo], ?_⟩
      show ok a = false ↔ ∀ i < 1, ok (a + i) = false
      constructor
      · intro h i hi
        have hi0 : i = 0 := by omega
        subst hi0; simpa using h
      · intro h; simpa using h 0 (by omega)
    | m + 1 =>
      by_cases hok : ok a = true
      · refine ⟨by simp [ensureConnGo, hok], by simp [ensureConnGo, hok], by
          simp [ensureConnGo, hok], ?_⟩
        have he : (ensureConnGo ok a (m + 2)).2.2 = true := by simp [ensureConnGo, hok]
        rw [he]
        constructor
        · intro h; exact absurd h (by decide)
        · intro hall
          exact absurd (by simpa using hall 0 (by omega)) (by simp [hok])
      · have hokf : ok a = false := by
          cases h : ok a
          · rfl
          · exact absurd h hok
        obtain ⟨ha1, hle, hsl, hex⟩ := ih (a + 1) (by omega)
        have hgo : ensureConnGo ok a (m + 2) =
            (2 ^ a :: (ensureConnGo ok (a + 1) (m + 1)).1,
             (ensureConnGo ok (a + 1) (m + 1)).2.1 + 1,
             (ensureConnGo ok (a + 1) (m + 1)).2.2) := by
          simp [ensureConnGo, hok]
        rw [hgo]
        refine ⟨show 1 ≤ (ensureConnGo ok (a + 1) (m + 1)).2.1 + 1 by omega,
          show (ensureConnGo ok (a + 1) (m + 1)).2.1 + 1 ≤ m + 2 by omega, ?_, ?_⟩
        · show 2 ^ a :: (ensureConnGo ok (a + 1) (m + 1)).1 =
            (List.range ((ensureConnGo ok (a + 1) (m + 1)).2.1 + 1 - 1)).map
              (fun i => 2 ^ (a + i))
          rw [Nat.add_sub_cancel]
          obtain ⟨k, hk⟩ : ∃ k, (ensureConnGo ok (a + 1) (m + 1)).2.1 = k + 1 :=
            ⟨(ensureConnGo ok (a + 1) (m + 1)).2.1 - 1, by omega⟩
          have hk2 : (ensureConnGo ok (a + 1) (m + 1)).2.1 - 1 = k := by omega
          rw [hk2] at hsl
          rw [hk, List.range_succ_eq_map, List.map_cons, List.map_map, hsl]
          refine List.cons_eq_cons.mpr ⟨by simp, ?_⟩
          refine List.map_congr_left ?_
          intro i _
          show (2 : Nat) ^ (a + 1 + i) = ((fun j => 2 ^ (a + j)) ∘ Nat.succ) i
          have hadd : a + 1 + i = a + (i + 1) := by omega
          simp [Function.comp, hadd]
        · show (ensureConnGo ok (a + 1) (m + 1)).2.2 = false ↔
            ∀ i < m + 2, ok (a + i) = false
          rw [hex]
          constructor
          · intro h i hi
            match i with
            | 0 => simpa using hokf
            | j + 1 =>
              have hj := h j (by omega)
              rw [show a + 1 + j = a + (j + 1) by omega] at hj
              exact hj
          · intro h j hj
            have hj1 := h (j + 1) (by omega)
            rw [show a + 1 + j = a + (j + 1) by omega]
            exact hj1

/-- C8: `ensure_connection_established` (modelled from the spec, see its doc
comment: the function is imported from `common.sql_utils` but absent from the
source tree) probes the store with the trivial query (the probe oracle
`connectOk`); within the observed bound of 2-3 attempts it makes at most
`maxRetries` probes, each failed probe that is not the last is followed by a
sleep of `2 ^ attempt` time units (so the sleep trace is exactly
`[2^0, 2^1, …]`), and it reports the fatal connectivity error (rather than
retrying further or continuing) exactly when every one of its `maxRetries`
probes failed. -/
theorem ensure_connection_established_spec :
    ∀ (connectOk : Nat → Bool) (maxRetries : Nat),
      1 ≤ maxRetries → maxRetries ≤ 3 →
      (ensure_connection_established connectOk maxRetries).2.1 ≤ 3 ∧
      (ensure_connection_established connectOk maxRetries).2.1 ≤ maxRetries ∧
      (ensure_connection_established connectOk maxRetries).1 =
        (List.range ((ensure_connection_established connectOk maxRetries).2.1 - 1)).map
          (fun i => 2 ^ i) ∧
      ((ensure_connection_established connectOk maxRetries).2.2 = false ↔
        ∀ i < maxRetries, connectOk i = false) := by
  intro ok m h1 h3
  unfold ensure_connection_established
  obtain ⟨ha, hle, hsl, hex⟩ := ensureConnGo_spec ok m 0 h1
  refine ⟨by omega, hle, ?_, ?_⟩
  · rw [hsl]
    refine List.map_congr_left ?_
    intro i _
    rw [Nat.zero_add]
  · simpa using hex

/-- Witness for C8: `ensure_connection_established_spec` at the concrete
oracle that always fails and the bound 3: two sleeps of 1 and 2 time units,
three attempts, fatal failure. -/
theorem ensure_connection_established_spec_witness :
    (ensure_connection_established (fun _ => false) 3).2.1 ≤ 3 ∧
    (ensure_connection_established (fun _ => false) 3).2.1 ≤ 3 ∧
    (ensure_connection_established (fun _ => false) 3).1 =
      (List.range ((ensure_connection_established (fun _ => false) 3).2.1 - 1)).map
        (fun i => 2 ^ i) ∧
    ((ensure_connection_established (fun _ => false) 3).2.2 = false ↔
      ∀ i < 3, (fun _ : Nat => false) i = false) :=
  ensure_connection_established_spec (fun _ => false) 3 (by decide) (by decide)

/-! ## C4: a `Succeeded` file is skipped with zero writes -/

/-- C4: when the tracker row for the file (under the pipeline's fixed CSV
container `"products-dev"`) is in the Succeeded state (`StatusId = 3`),
`process_csv_from_stream` returns immediately with a success result and the
whole database — canonical tables, staging tables and the tracker itself —
is exactly as before: zero writes. -/
theorem process_csv_skips_succeeded :
    ∀ (db : Database) (csvSize : Nat) (blobName : String) (fr : RawFrame)
      (b : Guid) (now : Nat) (pf : ProcessFileRow),
      check_process_file_status db "products-dev" blobName = some pf →
      pf.StatusId = 3 →
      process_csv_from_stream db csvSize blobName fr b now =
        (db, ⟨true, 0, 0⟩) := by
  intro db csvSize blobName fr b now pf hfound h3
  unfold process_csv_from_stream
  rw [hfound]
  simp [h3]

/-- The empty database shared by the concrete scenarios below. -/
def emptyDb : Database := ⟨[], [], [], [], [], [], [], [], 1, 1, 1, 1, 1⟩

/-- A tracker row marking `f.csv` as Succeeded. -/
def c4Pf : ProcessFileRow :=
  ⟨1, "products-dev", "f.csv", 3, 0, 10, "text/csv", 0, 0, "", ""⟩

/-- A database whose only content is the Succeeded tracker row. -/
def c4Db : Database := { emptyDb with processFile := [c4Pf] }

/-- A one-row frame used to re-submit `f.csv`. -/
def c4Frame : RawFrame :=
  ⟨true, true, true, true, true,
   [⟨some "Arroz 500g", none, some "ProvA", some "100", some "13"⟩]⟩

/-- Witness for C4: the theorem applied at the concrete database `c4Db`,
hypotheses discharged by evaluation. -/
theorem process_csv_skips_succeeded_witness :
    process_csv_from_stream c4Db 10 "f.csv" c4Frame 3 50 = (c4Db, ⟨true, 0, 0⟩) :=
  process_csv_skips_succeeded c4Db 10 "f.csv" c4Frame 3 50 c4Pf (by decide) rfl

/-! ## C3: a failing merge step rolls the whole transaction back -/

/-- C3: if the product step (step 2) fails, or the product step succeeds and
the provider-product step (step 3) fails, the observable database after
running `merge_staging_to_fact_tables` is exactly the database before the
transaction began — the provider inserts of step 1 and the product work of
step 2 are rolled back with it, so no partially applied merge is ever
observable. -/
theorem merge_failure_rolls_back :
    ∀ (db : Database) (b : Guid) (now : Nat),
      ((∃ e, mergeProducts (mergeProviders db b now) b now = Except.error e) ∨
       (∃ db2 e, mergeProducts (mergeProviders db b now) b now = Except.ok db2 ∧
          mergeProviderProducts db2 b now = Except.error e)) →
      run_merge db b now = db := by
  intro db b now h
  unfold run_merge merge_staging_to_fact_tables
  rcases h with ⟨e, he⟩ | ⟨db2, e, hok, he⟩
  · rw [he]
  · simp only [hok, he]

/-- A database on which step 2 fails: the canonical `Product` table holds a
row `P` and the batch stages two rows named `P`, so the product `MERGE` would
update the same target row twice (error 8672).  The staged provider name is
new, so step 1 would insert it — the rollback discards that insert. -/
def c3Db : Database :=
  { emptyDb with
    product := [⟨1, "P", none, none, none, none, 0, 0⟩]
    stgProvider := [⟨"NewProv", 5⟩]
    stgProduct := [⟨"P", none, some 10, none, none, 5⟩, ⟨"P", none, some 20, none, none, 5⟩]
    nextProductId := 2 }

/-- Witness for C3: `merge_failure_rolls_back` at the concrete database
`c3Db`, the failing-step hypothesis discharged by evaluation; the rollback
also discards step 1's provider insert. -/
theorem merge_failure_rolls_back_witness :
    run_merge c3Db 5 9 = c3Db :=
  merge_failure_rolls_back c3Db 5 9
    (Or.inl ⟨"MERGE attempted to update the same target row more than once", rfl⟩)

/-! ## C7: vision-service failures and the mock fallback -/

/-- The invoice pipeline run on an empty database with a 200 response whose
content is not valid JSON. -/
def c7Result : Database × Bool :=
  process_invoice_image_direct emptyDb true
    (VisionResponse.malformedContent "not json") "factura1.jpg" "2024-01-15" 9 60

/-- Counterexample for C7, at a concrete input: upon a malformed (unparsable)
structured response the extractor silently substitutes the mock products (two
rows, not an error), and the pipeline proceeds to write staging rows — one
staged provider and two staged products — before failing later, so staging
writes do happen and substitute rows are used.  The claim demands a fatal
extraction error with zero staging writes. -/
theorem invoice_malformed_substitutes_mock_rows :
    extract_invoice_data_with_openai true (VisionResponse.malformedContent "not json")
        "factura1.jpg" = extract_invoice_data_from_image "factura1.jpg" ∧
    (extract_invoice_data_from_image "factura1.jpg").length = 2 ∧
    c7Result.1.stgProvider = [⟨"Distribuidora San Juan", 9⟩] ∧
    c7Result.1.stgProduct.length = 2 ∧
    c7Result.2 = false := by
  refine ⟨rfl, rfl, by decide, by decide, by decide⟩

/-- C7 amended: a vision-service failure (non-200 status), a malformed
response, or missing configuration does not abort the invoice pipeline —
`extract_invoice_data_with_openai` silently falls back to the built-in mock
extraction, whose product list is never empty, and the pipeline proceeds to
staging with those substitute rows; only a successfully parsed response with
an empty product list is fatal before any staging or merge work, leaving the
database untouched. -/
theorem invoice_extraction_fallback_amended :
    (∀ (name raw : String),
        extract_invoice_data_with_openai true (VisionResponse.malformedContent raw) name =
          extract_invoice_data_from_image name) ∧
    (∀ (name : String) (code : Nat),
        extract_invoice_data_with_openai true (VisionResponse.httpFailure code) name =
          extract_invoice_data_from_image name) ∧
    (∀ (name : String) (resp : VisionResponse),
        extract_invoice_data_with_openai false resp name =
          extract_invoice_data_from_image name) ∧
    (∀ (name : String), (extract_invoice_data_from_image name).isEmpty = false) ∧
    (∀ (db : Database) (name dateStr : String) (b : Guid) (now : Nat),
        process_invoice_image_direct db true (VisionResponse.parsed []) name dateStr
          b now = (db, false)) := by
  refine ⟨fun name raw => rfl, fun name code => rfl, fun name resp => rfl, ?_, ?_⟩
  · intro name
    unfold extract_invoice_data_from_image
    split <;> rfl
  · intro db name dateStr b now
    rfl

/-! ## C1: staged provider-product rows do not identify their pair -/

/-- A two-record input batch: record 1 describes product `ProductoUno` from
provider `ProveAA`, record 2 describes product `ProductoDos` from provider
`ProveBB`. -/
def c1Frame : RawFrame :=
  ⟨true, true, true, true, true,
   [⟨some "ProductoUno 1kg (G13)", none, some "ProveAA", some "100", some "13"⟩,
    ⟨some "ProductoDos 2kg (G5)", none, some "ProveBB", some "200", some "5"⟩]⟩

/-- The database after staging `c1Frame` under batch guid 7. -/
def c1Staged : Database :=
  (normalize_to_staging_tables_from_dataframe emptyDb
    (apply_transformations c1Frame) 7).1

/-- The database after merging batch 7. -/
def c1Merged : Database := run_merge c1Staged 7 100

/-- Counterexample for C1, at a concrete two-record batch.  The staged
provider-product rows carry only the placeholder ids `(0, 0)` plus review
date, package units and tax code — no identifying text.  After the merge,
product 1 is `ProductoUno`/provider 1 is `ProveAA` and product 2 is
`ProductoDos`/provider 2 is `ProveBB` (normalized names), yet the canonical
`Provider_Product` table holds 8 associations — among them `(2, 1)`, pairing
`ProductoDos` with `ProveAA`, which no input record described — because step
3 joins the staged rows through the batch guid alone. -/
theorem provider_product_merge_counterexample :
    (c1Staged.stgProviderProduct.map fun r => (r.ProductId, r.ProviderId)) =
        [(0, 0), (0, 0)] ∧
    (c1Merged.product.map fun p => (p.Id, p.ProductName)) =
        [(1, "Productouno 1Kg (G13)"), (2, "Productodos 2Kg (G5)")] ∧
    (c1Merged.provider.map fun p => (p.Id, p.Name)) =
        [(1, "Prove Aa"), (2, "Prove Bb")] ∧
    List.count (2, 1) (c1Merged.providerProduct.map fun r => (r.ProductId, r.ProviderId)) = 2 ∧
    c1Merged.providerProduct.length = 8 := by
  refine ⟨by decide, by decide, by decide, by decide, by decide⟩

/-- C1 amended: step 3 re-derives `ProductId` and `ProviderId` by joining the
batch's staged provider-product rows to the staged products and staged
providers through the shared batch guid alone (and from there to the
canonical tables by natural key), so a derived source row exists for every
combination of a staged provider-product row, a staged product resolving to a
canonical product, and a staged provider resolving to a canonical provider —
the derived id pair is independent of the staged provider-product row, and an
input record resolves to the pair it described only when the batch stages a
single product and a single provider. -/
theorem ppSourceRows_cross_join :
    ∀ (db : Database) (b : Guid) (row : PPSourceRow),
      row ∈ ppSourceRows db b ↔
        ∃ spp ∈ db.stgProviderProduct, spp.BatchGuid = b ∧
        ∃ sp ∈ db.stgProduct, sp.BatchGuid = b ∧
        ∃ p ∈ db.product, p.ProductName = sp.ProductName ∧
        ∃ spr ∈ db.stgProvider, spr.BatchGuid = b ∧
        ∃ pr ∈ db.provider, pr.Name = spr.Name ∧
          row = ⟨p.Id, pr.Id, spp.LastReviewDt, spp.PackageUnits, spp.IVA,
            spp.IsValidated⟩ := by
  intro db b row
  simp only [ppSourceRows, List.mem_flatMap, List.mem_map, List.mem_filter,
    beq_iff_eq]
  constructor
  · rintro ⟨spp, ⟨hspp, hsppb⟩, sp, ⟨hsp, hspb⟩, p, ⟨hp, hpn⟩, spr, ⟨hspr, hsprb⟩,
      pr, ⟨hpr, hprn⟩, hrow⟩
    exact ⟨spp, hspp, hsppb, sp, hsp, hspb, p, hp, hpn, spr, hspr, hsprb,
      pr, hpr, hprn, hrow.symm⟩
  · rintro ⟨spp, hspp, hsppb, sp, hsp, hspb, p, hp, hpn, spr, hspr, hsprb,
      pr, hpr, hprn, hrow⟩
    exact ⟨spp, ⟨hspp, hsppb⟩, sp, ⟨hsp, hspb⟩, p, ⟨hp, hpn⟩, spr, ⟨hspr, hsprb⟩,
      pr, ⟨hpr, hprn⟩, hrow.symm⟩

/-! ## C2: re-running the merge for the same batch is idempotent

The generic skeleton first: an SQL `MERGE` whose update and insert actions
agree on the key (and whose update is idempotent and fixes a fresh insert)
satisfies: if a first run succeeds, a second run over the same source either
raises (and the transaction rollback preserves the state) or succeeds
without changing anything. -/

lemma insertRows_mem {R S : Type} (mk : Nat → S → R) :
    ∀ (l : List S) (start : Nat) (t : R), t ∈ insertRows mk start l →
      ∃ n s, s ∈ l ∧ t = mk n s := by
  intro l
  induction l with
  | nil => intro start t ht; cases ht
  | cons a rest ih =>
    intro start t ht
    rcases List.mem_cons.mp ht with rfl | hmem
    · exact ⟨start, a, by simp, rfl⟩
    · obtain ⟨n, s, hs, rfl⟩ := ih (start + 1) t hmem
      exact ⟨n, s, by simp [hs], rfl⟩

lemma insertRows_mem_of_mem {R S : Type} (mk : Nat → S → R) :
    ∀ (l : List S) (start : Nat) (s : S), s ∈ l →
      ∃ n, mk n s ∈ insertRows mk start l := by
  intro l
  induction l with
  | nil => intro start s hs; cases hs
  | cons a rest ih =>
    intro start s hs
    rcases List.mem_cons.mp hs with rfl | hmem
    · exact ⟨start, by simp [insertRows]⟩
    · obtain ⟨n, hn⟩ := ih (start + 1) s hmem
      exact ⟨n, by simp [insertRows, hn]⟩

/-- When a predicate holds at most once on a list, `find?` returns any member
satisfying it. -/
lemma find_eq_of_countP_le_one {S : Type} :
    ∀ (l : List S) (p : S → Bool), l.countP p ≤ 1 →
      ∀ s0 ∈ l, p s0 = true → l.find? p = some s0 := by
  intro l
  induction l with
  | nil => intro p h s0 hs0; cases hs0
  | cons a t ih =>
    intro p h s0 hs0 hp
    by_cases hpa : p a = true
    · rw [List.find?_cons_of_pos _ hpa]
      rcases List.mem_cons.mp hs0 with rfl | hmem
      · rfl
      · exfalso
        have h1 : 0 < t.countP p := List.countP_pos_iff.mpr ⟨s0, hmem, hp⟩
        have h2 : (a :: t).countP p = t.countP p + 1 := List.countP_cons_of_pos p t hpa
        omega
    · rw [List.find?_cons_of_neg _ hpa]
      have hs0t : s0 ∈ t := by
        rcases List.mem_cons.mp hs0 with rfl | hmem
        · exact absurd hp hpa
        · exact hmem
      have hc : (a :: t).countP p = t.countP p := List.countP_cons_of_neg p t hpa
      exact ih p (by omega) s0 hs0t hp

section MergeGeneric

variable {K R S : Type} [DecidableEq K]
variable (key : R → K) (skey : S → K) (upd : S → R → R) (mk : Nat → S → R)

lemma mergeUpd_key (hKeyUpd : ∀ s t, key (upd s t) = key t) (src : List S) (t : R) :
    key (mergeUpd key skey upd src t) = key t := by
  unfold mergeUpd
  cases hfind : src.find? (fun s => skey s == key t) with
  | some s1 => exact hKeyUpd s1 t
  | none => rfl

lemma mergeUpd_idem (hKeyUpd : ∀ s t, key (upd s t) = key t)
    (hUpdUpd : ∀ s t, upd s (upd s t) = upd s t) (src : List S) (t0 : R) :
    mergeUpd key skey upd src (mergeUpd key skey upd src t0) =
      mergeUpd key skey upd src t0 := by
  cases hfind : src.find? (fun s => skey s == key t0) with
  | none =>
    have h0 : mergeUpd key skey upd src t0 = t0 := by
      unfold mergeUpd; rw [hfind]
    simp only [h0]
  | some s1 =>
    have h0 : mergeUpd key skey upd src t0 = upd s1 t0 := by
      unfold mergeUpd; rw [hfind]
    have hpred : (fun s => skey s == key (upd s1 t0)) = (fun s => skey s == key t0) := by
      funext u; rw [hKeyUpd]
    have h1 : mergeUpd key skey upd src (upd s1 t0) = upd s1 (upd s1 t0) := by
      unfold mergeUpd; rw [hpred, hfind]
    rw [h0, h1, hUpdUpd]

lemma mergeUpd_eq_upd (src : List S) (s0 : S) (t : R) (hkey : key t = skey s0)
    (hs0 : s0 ∈ src) (hcount : src.countP (fun s => skey s == key t) ≤ 1) :
    mergeUpd key skey upd src t = upd s0 t := by
  unfold mergeUpd
  have hfind : src.find? (fun s => skey s == key t) = some s0 :=
    find_eq_of_countP_le_one src _ hcount s0 hs0 (by rw [hkey]; exact beq_self_eq_true _)
  rw [hfind]

/-- The generic idempotence: a successful second `MERGE` over the same source
starting from a successful first run's output changes nothing. -/
lemma mergeRows_idem
    (hKeyUpd : ∀ s t, key (upd s t) = key t)
    (hKeyMk : ∀ n s, key (mk n s) = skey s)
    (hUpdUpd : ∀ s t, upd s (upd s t) = upd s t)
    (hUpdMk : ∀ n s, upd s (mk n s) = mk n s)
    (target : List R) (src : List S) (nextId : Nat) (t2 : List R) (n2 : Nat)
    (out : List R × Nat)
    (h1 : mergeRows key skey upd mk target src nextId = Except.ok (t2, n2))
    (h2 : mergeRows key skey upd mk t2 src n2 = Except.ok out) :
    out = (t2, n2) := by
  unfold mergeRows at h1 h2
  split at h1
  · cases h1
  injection h1 with h1p
  injection h1p with h1a h1b
  split at h2
  case isTrue => cases h2
  case isFalse hg2 =>
  have hbound : ∀ t ∈ t2, src.countP (fun s => skey s == key t) ≤ 1 := by
    intro t ht
    by_contra hgt
    exact hg2 (List.any_eq_true.mpr ⟨t, ht, by rw [decide_eq_true_eq]; omega⟩)
  have hmem_t2 : ∀ t : R, t ∈ t2 ↔
      (t ∈ target.map (mergeUpd key skey upd src) ∨
       t ∈ insertRows mk nextId
        (src.filter (fun s => ! target.any (fun t => key t == skey s)))) := by
    intro t
    rw [← h1a, List.mem_append]
  have hA : ∀ s ∈ src, ∃ t, t ∈ t2 ∧ key t = skey s := by
    intro s hs
    by_cases hpre : (target.any fun t => key t == skey s) = true
    · obtain ⟨t0, ht0, hk0⟩ := List.any_eq_true.mp hpre
      refine ⟨mergeUpd key skey upd src t0,
        (hmem_t2 _).mpr (Or.inl (List.mem_map_of_mem _ ht0)), ?_⟩
      rw [mergeUpd_key key skey upd hKeyUpd]
      exact beq_iff_eq.mp hk0
    · have hfalse : (target.any fun t => key t == skey s) = false := by
        cases h : (target.any fun t => key t == skey s)
        · rfl
        · exact absurd h hpre
      have hsnew : s ∈ src.filter (fun s => ! target.any (fun t => key t == skey s)) :=
        List.mem_filter.mpr ⟨hs, by rw [hfalse]; rfl⟩
      obtain ⟨n, hn⟩ := insertRows_mem_of_mem mk _ nextId s hsnew
      exact ⟨mk n s, (hmem_t2 _).mpr (Or.inr hn), hKeyMk n s⟩
  have hnew2 : src.filter (fun s => ! t2.any (fun t => key t == skey s)) = [] := by
    rw [List.filter_eq_nil_iff]
    intro s hs
    obtain ⟨t, ht, hkey⟩ := hA s hs
    have hany : t2.any (fun t => key t == skey s) = true :=
      List.any_eq_true.mpr ⟨t, ht, by rw [hkey]; exact beq_self_eq_true _⟩
    rw [hany]
    simp
  have hfix : ∀ t ∈ t2, mergeUpd key skey upd src t = t := by
    intro t ht
    rcases (hmem_t2 t).mp ht with hmap | hins
    · obtain ⟨t0, _, rfl⟩ := List.mem_map.mp hmap
      exact mergeUpd_idem key skey upd hKeyUpd hUpdUpd src t0
    · obtain ⟨n, s0, hs0, rfl⟩ := insertRows_mem mk _ _ _ hins
      have hs0src : s0 ∈ src := (List.mem_filter.mp hs0).1
      have hb := hbound _ ht
      rw [mergeUpd_eq_upd key skey upd src s0 _ (hKeyMk n s0) hs0src hb]
      exact hUpdMk n s0
  have hmap2 : t2.map (mergeUpd key skey upd src) = t2 := by
    have h : t2.map (mergeUpd key skey upd src) = t2.map id :=
      List.map_congr_left (fun a ha => by rw [hfix a ha]; rfl)
    rw [h, List.map_id]
  rw [hnew2, hmap2] at h2
  simp only [insertRows, List.append_nil, List.length_nil, Nat.add_zero] at h2
  injection h2 with h2p
  exact h2p.symm

end MergeGeneric

/-! ### Unpacking the three concrete merge steps -/

lemma mergeProducts_ok_elim (db : Database) (b : Guid) (now : Nat) (d : Database)
    (h : mergeProducts db b now = Except.ok d) :
    mergeRows (fun t => t.ProductName) (fun s => s.ProductName) (updProduct now)
        (mkProductRow now) db.product (productSourceRows db b) db.nextProductId =
      Except.ok (d.product, d.nextProductId) ∧
    d = { db with product := d.product, nextProductId := d.nextProductId } := by
  unfold mergeProducts at h
  cases hm : mergeRows (fun t => t.ProductName) (fun s => s.ProductName)
      (updProduct now) (mkProductRow now) db.product (productSourceRows db b)
      db.nextProductId with
  | error e => rw [hm] at h; cases h
  | ok pr =>
    obtain ⟨tbl, nid⟩ := pr
    rw [hm] at h
    injection h with h
    subst h
    exact ⟨rfl, rfl⟩

lemma mergeProviderProducts_ok_elim (db : Database) (b : Guid) (now : Nat)
    (d : Database) (h : mergeProviderProducts db b now = Except.ok d) :
    mergeRows (fun t => (t.ProductId, t.ProviderId))
        (fun s : PPSourceRow => (s.ProductId, s.ProviderId)) updPP mkPPRow
        db.providerProduct (ppSourceRows db b) db.nextProviderProductId =
      Except.ok (d.providerProduct, d.nextProviderProductId) ∧
    d = { db with providerProduct := d.providerProduct,
                  nextProviderProductId := d.nextProviderProductId } := by
  unfold mergeProviderProducts at h
  cases hm : mergeRows (fun t => (t.ProductId, t.ProviderId))
      (fun s : PPSourceRow => (s.ProductId, s.ProviderId)) updPP mkPPRow
      db.providerProduct (ppSourceRows db b) db.nextProviderProductId with
  | error e => rw [hm] at h; cases h
  | ok pr =>
    obtain ⟨tbl, nid⟩ := pr
    rw [hm] at h
    injection h with h
    subst h
    exact ⟨rfl, rfl⟩

lemma stagedProviderNames_congr (d1 d2 : Database) (b : Guid)
    (h : d1.stgProvider = d2.stgProvider) :
    stagedProviderNames d1 b = stagedProviderNames d2 b := by
  unfold stagedProviderNames
  rw [h]

lemma productSourceRows_congr (d1 d2 : Database) (b : Guid)
    (h : d1.stgProduct = d2.stgProduct) :
    productSourceRows d1 b = productSourceRows d2 b := by
  unfold productSourceRows
  rw [h]

lemma ppSourceRows_congr (d1 d2 : Database) (b : Guid)
    (h1 : d1.stgProviderProduct = d2.stgProviderProduct)
    (h2 : d1.stgProduct = d2.stgProduct)
    (h3 : d1.product = d2.product)
    (h4 : d1.stgProvider = d2.stgProvider)
    (h5 : d1.provider = d2.provider) :
    ppSourceRows d1 b = ppSourceRows d2 b := by
  unfold ppSourceRows
  rw [h1, h2, h3, h4, h5]

/-- After step 1, every staged provider name of the batch is present in the
canonical `Provider` table. -/
lemma mergeProviders_names_present (db : Database) (b : Guid) (now : Nat)
    (n : String) (hn : n ∈ stagedProviderNames db b) :
    (mergeProviders db b now).provider.any (fun t => t.Name == n) = true := by
  unfold mergeProviders
  rw [List.any_append]
  by_cases hpre : db.provider.any (fun t => t.Name == n) = true
  · rw [hpre]; rfl
  · have hfalse : db.provider.any (fun t => t.Name == n) = false := by
      cases h : db.provider.any (fun t => t.Name == n)
      · rfl
      · exact absurd h hpre
    have hmem : n ∈ (stagedProviderNames db b).filter
        (fun n => ! db.provider.any (fun t => t.Name == n)) :=
      List.mem_filter.mpr ⟨hn, by rw [hfalse]; rfl⟩
    obtain ⟨i, hi⟩ := insertRows_mem_of_mem (mkProviderRow now) _ db.nextProviderId n hmem
    have hins : (insertRows (mkProviderRow now) db.nextProviderId
        ((stagedProviderNames db b).filter
          (fun n => ! db.provider.any (fun t => t.Name == n)))).any
        (fun t => t.Name == n) = true :=
      List.any_eq_true.mpr ⟨mkProviderRow now i n, hi, beq_self_eq_true _⟩
    rw [hins]
    simp

/-- When every staged provider name is already present, step 1 inserts
nothing: the insert-only provider `MERGE` is the identity. -/
lemma mergeProviders_id_of_present (db : Database) (b : Guid) (now : Nat)
    (h : ∀ n ∈ stagedProviderNames db b,
      db.provider.any (fun t => t.Name == n) = true) :
    mergeProviders db b now = db := by
  unfold mergeProviders
  have hfil : (stagedProviderNames db b).filter
      (fun n => ! db.provider.any (fun t => t.Name == n)) = [] := by
    rw [List.filter_eq_nil_iff]
    intro n hn
    rw [h n hn]
    simp
  rw [hfil]
  simp [insertRows]

/-- Re-running the whole three-step merge over an already-merged state either
raises (rolling back) or commits the identical state. -/
lemma merge_ok_again (db db3 d : Database) (b : Guid) (now : Nat)
    (h1 : merge_staging_to_fact_tables db b now = Except.ok db3)
    (h2 : merge_staging_to_fact_tables db3 b now = Except.ok d) :
    d = db3 := by
  unfold merge_staging_to_fact_tables at h1 h2
  cases hp1 : mergeProducts (mergeProviders db b now) b now with
  | error e => rw [hp1] at h1; cases h1
  | ok db2 =>
  simp only [hp1] at h1
  cases hpp1 : mergeProviderProducts db2 b now with
  | error e => rw [hpp1] at h1; cases h1
  | ok db3x =>
  simp only [hpp1, Except.ok.injEq] at h1
  subst h1
  obtain ⟨hm1, hs1⟩ := mergeProducts_ok_elim _ b now db2 hp1
  obtain ⟨hm2, hs2⟩ := mergeProviderProducts_ok_elim db2 b now db3x hpp1
  have f2prov : db2.provider = (mergeProviders db b now).provider := by rw [hs1]
  have f2stgprov : db2.stgProvider = db.stgProvider := by rw [hs1]; rfl
  have f2stgprod : db2.stgProduct = db.stgProduct := by rw [hs1]; rfl
  have f3prod : db3x.product = db2.product := by rw [hs2]
  have f3nprod : db3x.nextProductId = db2.nextProductId := by rw [hs2]
  have f3prov : db3x.provider = db2.provider := by rw [hs2]
  have f3stgprov : db3x.stgProvider = db2.stgProvider := by rw [hs2]
  have f3stgprod : db3x.stgProduct = db2.stgProduct := by rw [hs2]
  have f3stgpp : db3x.stgProviderProduct = db2.stgProviderProduct := by rw [hs2]
  have hA : mergeProviders db3x b now = db3x := by
    apply mergeProviders_id_of_present
    intro n hn
    have hn2 : n ∈ stagedProviderNames db b := by
      rwa [stagedProviderNames_congr db3x db b (by rw [f3stgprov, f2stgprov])] at hn
    have hpres := mergeProviders_names_present db b now n hn2
    rw [f3prov, f2prov]
    exact hpres
  rw [hA] at h2
  cases hp2 : mergeProducts db3x b now with
  | error e => rw [hp2] at h2; cases h2
  | ok e2 =>
  simp only [hp2] at h2
  obtain ⟨hm3, hs3⟩ := mergeProducts_ok_elim db3x b now e2 hp2
  have hsrc : productSourceRows db3x b = productSourceRows (mergeProviders db b now) b := by
    apply productSourceRows_congr
    rw [f3stgprod, f2stgprod]
    rfl
  rw [hsrc, f3prod, f3nprod] at hm3
  have hpair := mergeRows_idem (fun t : ProductRow => t.ProductName)
    (fun s : StgProductRow => s.ProductName)
    (updProduct now) (mkProductRow now)
    (fun s t => rfl) (fun n s => rfl) (fun s t => rfl) (fun n s => rfl)
    (mergeProviders db b now).product (productSourceRows (mergeProviders db b now) b)
    (mergeProviders db b now).nextProductId db2.product db2.nextProductId
    (e2.product, e2.nextProductId) hm1 hm3
  injection hpair with hb1 hb2
  have hB : e2 = db3x := by
    rw [hs3, hb1, hb2, ← f3prod, ← f3nprod]
  rw [hB] at h2
  cases hpp2 : mergeProviderProducts db3x b now with
  | error e => rw [hpp2] at h2; cases h2
  | ok d2 =>
  simp only [hpp2, Except.ok.injEq] at h2
  obtain ⟨hm4, hs4⟩ := mergeProviderProducts_ok_elim db3x b now d2 hpp2
  have hsrc2 : ppSourceRows db3x b = ppSourceRows db2 b :=
    ppSourceRows_congr _ _ b f3stgpp f3stgprod f3prod f3stgprov f3prov
  rw [hsrc2] at hm4
  have hpair2 := mergeRows_idem (fun t : ProviderProductRow => (t.ProductId, t.ProviderId))
    (fun s : PPSourceRow => (s.ProductId, s.ProviderId)) updPP mkPPRow
    (fun s t => rfl) (fun n s => rfl) (fun s t => rfl) (fun n s => rfl)
    db2.providerProduct (ppSourceRows db2 b) db2.nextProviderProductId
    db3x.providerProduct db3x.nextProviderProductId
    (d2.providerProduct, d2.nextProviderProductId) hm2 hm4
  injection hpair2 with hc1 hc2
  have hC : d2 = db3x := by
    rw [hs4, hc1, hc2]
  rw [← h2, hC]

/-- C2: running `merge_staging_to_fact_tables` twice with the same batch guid
over the same unchanged staging contents (and against the same clock reading)
leaves the observable database — in particular the canonical `Provider`,
`Product` and `Provider_Product` row sets — exactly as running it once:
matching is always by natural or composite key, so the second run's steps
find every staged key already present and either update it to the values it
already has, or (when duplicate keys make a target row match twice) raise
SQL Server's error 8672, which rolls the second transaction back without a
trace. -/
theorem merge_idempotent :
    ∀ (db : Database) (b : Guid) (now : Nat),
      run_merge (run_merge db b now) b now = run_merge db b now := by
  intro db b now
  cases hm : merge_staging_to_fact_tables db b now with
  | error e =>
    have h0 : run_merge db b now = db := by unfold run_merge; rw [hm]
    rw [h0]
    exact h0
  | ok db3 =>
    have h0 : run_merge db b now = db3 := by unfold run_merge; rw [hm]
    rw [h0]
    cases hm2 : merge_staging_to_fact_tables db3 b now with
    | error e => unfold run_merge; rw [hm2]
    | ok d =>
      have h3 : run_merge db3 b now = d := by unfold run_merge; rw [hm2]
      rw [h3]
      exact merge_ok_again db db3 d b now hm hm2

end Aquiles
